import Mathlib

/-!
A shallow embedding of the SATEPSI scraper core (`src/satepsi_scraper.py`,
configuration constants from `src/config.py`) together with proofs about it.

Records are Python dicts with string keys and string values; we model them as
association lists with unique keys, where `rset` follows Python dict
assignment (update in place if the key exists, append otherwise) and `rget`
is dict lookup.  Document trees are modelled by the shapes each parser
actually consumes: panels with headers and label/value rows for `parse_html`,
rows of `td` texts plus an optional colspan detail cell for `parse_table`,
and a flat list of sibling nodes for `parse_links`.  Fallible Python code
(KeyError, AttributeError, I/O failure) is modelled with `Option`/`Except`.
-/

set_option autoImplicit false

namespace Satepsi

/-- A Python dict with string keys and values, as an association list. -/
abbrev Record := List (String × String)

/-- Dict lookup `r[k]` / `r.get(k)`: the value of the (unique) pair with key `k`. -/
def rget (r : Record) (k : String) : Option String :=
  (r.find? (fun p => p.1 == k)).map (fun p => p.2)

/-- Python `r.get(k, d)`. -/
def rgetD (r : Record) (k d : String) : String :=
  (rget r k).getD d

/-- Python dict assignment `r[k] = v`: replace in place when the key exists,
append the pair at the end otherwise. -/
def rset (r : Record) (k v : String) : Record :=
  if (r.find? (fun p => p.1 == k)).isSome then
    r.map (fun p => if p.1 == k then (k, v) else p)
  else
    r ++ [(k, v)]

/-- The key list of a record, in dict insertion order. -/
def rkeys (r : Record) : List String := r.map (fun p => p.1)

/-- Python `str.strip()`: remove leading and trailing whitespace.  (Defined
over the character list so that it evaluates by kernel reduction.) -/
def pyStrip (s : String) : String :=
  ⟨((s.data.dropWhile Char.isWhitespace).reverse.dropWhile Char.isWhitespace).reverse⟩

/-- Python `str.startswith(pre)`. -/
def pyStartsWith (s pre : String) : Bool :=
  pre.data.isPrefixOf s.data

/-- Python `s[1:]`. -/
def pyDropOne (s : String) : String := ⟨s.data.drop 1⟩

/-- Python `str.rstrip(":")`: drop every trailing colon. -/
def pyRstripColons (s : String) : String :=
  ⟨(s.data.reverse.dropWhile (fun c => c == ':')).reverse⟩

/-- One left-to-right scan removing every non-overlapping occurrence of `pat`;
the fuel argument (the input length) makes the recursion structural. -/
def removeSubAux (pat : List Char) : Nat → List Char → List Char
  | _, [] => []
  | 0, s => s
  | n + 1, c :: rest =>
    if pat.isPrefixOf (c :: rest) then removeSubAux pat n ((c :: rest).drop pat.length)
    else c :: removeSubAux pat n rest

/-- Python `str.replace(pat, "")`: remove all occurrences, scanning left to
right (the empty pattern is a no-op for this call, matching
`"s".replace("", "")` = `"s"`). -/
def pyRemove (s pat : String) : String :=
  if pat = "" then s else ⟨removeSubAux pat.data s.data.length s.data⟩

/-- `FIELD_MAP` from `config.py`: external labels to internal field names. -/
def FIELD_MAP : List (String × String) :=
  [("Status", "Status"),
   ("Autores", "Autores"),
   ("Editora", "Editora"),
   ("Construto", "Construto"),
   ("Público-alvo", "PublicoAlvo"),
   ("Idade da amostra", "IdadeAmostra"),
   ("Aplicação", "Aplicacao"),
   ("Correção", "Correcao"),
   ("Data de aprovação", "DataAprovacao"),
   ("Prazo dos estudos de validade", "PrazoEstudos"),
   ("Observações", "Observacoes")]

/-- `FIELD_MAP.get(label)`. -/
def fmGet (label : String) : Option String :=
  (FIELD_MAP.find? (fun p => p.1 == label)).map (fun p => p.2)

/-- The internal field names, `FIELD_MAP.values()`, in declaration order. -/
def canonicalFields : List String := FIELD_MAP.map (fun p => p.2)

/-- `{v: "" for v in FIELD_MAP.values()}`: the initial record every parser builds. -/
def initRecord : Record := FIELD_MAP.map (fun p => (p.2, ""))

/-! ### Panel-based extraction (`parse_html`) -/

/-- One `div.row` inside a panel: the text of the `div.font-weight-bold` label
cell (as `get_text(strip=True)`), and the texts of the `div.col-md-8` and
`div.col-md-10` value cells (as `get_text(" ", strip=True)`), each `none`
when the corresponding element is absent. -/
structure PanelRow where
  label : Option String
  value8 : Option String
  value10 : Option String
deriving Repr, DecidableEq

/-- One `div.accordion-item`: the first direct-child anchor, if any, as the
pair of its `get_text(strip=True)` text and the optional `span.badge` text;
plus the panel's `div.row` elements. -/
structure Panel where
  header : Option (String × Option String)
  rows : List PanelRow
deriving Repr, DecidableEq

/-- One iteration of the row loop in `parse_html`: skipped unless both a label
cell and a value cell (col-md-8 preferred, else col-md-10) are present; the
label's trailing colons are stripped before the `FIELD_MAP` lookup and
unrecognized labels are ignored. -/
def parseRow (rec : Record) (row : PanelRow) : Record :=
  match row.label, row.value8 <|> row.value10 with
  | some lt, some vt =>
    match fmGet (pyRstripColons lt) with
    | some k => rset rec k vt
    | none => rec
  | _, _ => rec

/-- One iteration of the panel loop in `parse_html`: panels with no header
anchor are skipped; the badge text becomes `Status` and is removed as a
literal substring from the header text, the stripped remainder becoming `Nome`. -/
def parsePanel (p : Panel) : Option Record :=
  match p.header with
  | none => none
  | some (ht, badge) =>
    let status := badge.getD ""
    let title := pyStrip (pyRemove ht status)
    let rec0 := rset (rset initRecord "Status" status) "Nome" title
    some (p.rows.foldl parseRow rec0)

/-- `parse_html`: one record per accordion panel that has a header anchor. -/
def parse_html (panels : List Panel) : List Record :=
  panels.filterMap parsePanel

/-! ### Table-pair extraction (`parse_table`) -/

/-- One `strong` element inside the colspan detail cell: its
`get_text(strip=True)` text and the raw string of its next sibling
(`none` when there is no next sibling). -/
structure DetailItem where
  label : String
  nxt : Option String
deriving Repr, DecidableEq

/-- One `tr`: the `get_text(strip=True)` texts of its `td` cells, and the
content of its first `td[colspan]` cell, if any, as the list of its
`strong` items. -/
structure TableRow where
  tds : List String
  colspanTd : Option (List DetailItem)
deriving Repr, DecidableEq

/-- A `table` element, reduced to its `tr` elements. -/
structure Table where
  rows : List TableRow
deriving Repr, DecidableEq

/-- One `strong` item of a detail row: the label's trailing colons are
stripped, unmapped labels are ignored, and the value is the stripped next
sibling string (empty when absent or falsy). -/
def applyDetail (rec : Record) (d : DetailItem) : Record :=
  match fmGet (pyRstripColons d.label) with
  | some k => rset rec k (pyStrip (d.nxt.getD ""))
  | none => rec

/-- The `strong`-item scan over the colspan cell's content, when that cell exists. -/
def colspanFold (rec0 : Record) : Option (List DetailItem) → Record
  | none => rec0
  | some items => items.foldl applyDetail rec0

/-- The `if detail:` block of `parse_table`: when a detail row exists and has
a colspan cell, its `strong` items are folded into the record. -/
def detailFold (rec0 : Record) : Option TableRow → Record
  | none => rec0
  | some dr => colspanFold rec0 dr.colspanTd

/-- One summary/detail pair in `parse_table`: skipped when the summary row has
fewer than four columns; otherwise the first four columns become Status,
Autores, Editora, Construto and the optional detail row's colspan cell is
scanned for `strong` label/value items. -/
def parsePair (s : TableRow) (d : Option TableRow) : List Record :=
  if s.tds.length < 4 then []
  else
    [detailFold
      (rset (rset (rset (rset initRecord
        "Status" (s.tds.getD 0 ""))
        "Autores" (s.tds.getD 1 ""))
        "Editora" (s.tds.getD 2 ""))
        "Construto" (s.tds.getD 3 ""))
      d]

/-- The loop `for i in range(1, len(rows), 2)` over the row list with the
leading header row already dropped: rows are consumed two at a time, an
unpaired trailing summary row getting no detail row. -/
def parseRowPairs : List TableRow → List Record
  | [] => []
  | [s] => parsePair s none
  | s :: d :: rest => parsePair s (some d) ++ parseRowPairs rest

/-- `parse_table`: summary rows sit at indices 1, 3, 5, …; index 0 is never read. -/
def parse_table (t : Table) : List Record :=
  parseRowPairs (t.rows.drop 1)

/-! ### Link-based extraction (`parse_links`)

The document fragment this legacy parser targets is a flat run of sibling
nodes under one parent: simple anchors (with a single string child, which is
what the `string=` filter of `find_all` matches), bare text nodes, and other
tags rendered to text. -/

/-- A sibling node in the link layout. -/
inductive LinkNode where
  | anchor (text : String)
  | textNode (text : String)
  | tagNode (text : String)
deriving Repr, DecidableEq

/-- The anchors `find_all("a", string=lambda t: t and t.strip().startswith("+"))`
selects: simple anchors whose stripped string starts with `"+"`. -/
def isPlusAnchor : LinkNode → Bool
  | LinkNode.anchor t => pyStartsWith (pyStrip t) "+"
  | _ => false

/-- The record built for one matched anchor before its siblings are visited:
`rec["Construto"] = a.get_text(strip=True)[1:].strip()`. -/
def linkRecord (t : String) : Record :=
  rset initRecord "Construto" (pyStrip (pyDropOne (pyStrip t)))

/-- The exception text raised by `isinstance(sib, BeautifulSoup.Tag)`:
the bs4 `BeautifulSoup` class has no attribute `Tag` (nor
`NavigableString`) — those are module-level names in `bs4`, so the sibling
loop of `parse_links` raises on its very first iteration. -/
def bs4AttrError : String :=
  "AttributeError: type object BeautifulSoup has no attribute Tag"

/-- `parse_links`: for each `"+"`-anchor, the code enters
`for sib in a.next_siblings` and immediately evaluates
`isinstance(sib, BeautifulSoup.Tag)`, which raises `AttributeError`; so a
matched anchor with any following sibling aborts the whole call, and only a
matched anchor that is the last node yields its record. -/
def parse_links : List LinkNode → Except String (List Record)
  | [] => Except.ok []
  | LinkNode.anchor t :: rest =>
    if pyStartsWith (pyStrip t) "+" then
      match rest with
      | [] => Except.ok [linkRecord t]
      | _ :: _ => Except.error bs4AttrError
    else
      parse_links rest
  | LinkNode.textNode _ :: rest => parse_links rest
  | LinkNode.tagNode _ :: rest => parse_links rest

/-! ### JSON persistence (`save_json` / `load_json`)

`save_json` writes `json.dump(data, f, ensure_ascii=False, indent=2)` and
`load_json` reads `json.load(f)`.  The textual layer is the `json` library;
we model the file content as the JSON value it denotes. -/

/-- A JSON value. -/
inductive JVal where
  | str (s : String)
  | num (n : Int)
  | boolean (b : Bool)
  | null
  | arr (xs : List JVal)
  | obj (fields : List (String × JVal))
deriving Repr

/-- `save_json`: a record list dumps to an array of objects whose fields are
the dict's pairs in insertion order. -/
def save_json (data : List Record) : JVal :=
  JVal.arr (data.map (fun r => JVal.obj (r.map (fun p => (p.1, JVal.str p.2)))))

/-- Parsing a JSON object back into a Python dict: fields are inserted in
order, a duplicate key keeping its first position with the last value
(exactly `rset` repeated); a non-string value does not yield a
string-valued record. -/
def decodeRecord (fields : List (String × JVal)) : Option Record :=
  fields.foldlM
    (fun acc p =>
      match p.2 with
      | JVal.str s => some (rset acc p.1 s)
      | _ => none)
    ([] : Record)

/-- One array element read back as a Python dict. -/
def decodeItem : JVal → Option Record
  | JVal.obj fs => decodeRecord fs
  | _ => none

/-- `load_json`: the file's JSON value read back as a list of records. -/
def load_json (j : JVal) : Option (List Record) :=
  match j with
  | JVal.arr xs => xs.mapM decodeItem
  | _ => none

/-! ### Change detection (`diff_status`)

`old_map = {i["Construto"]: i.get("Status", "") for i in old}` followed by a
list comprehension over `new`.  `i["Construto"]` raises `KeyError` when the
key is absent; the whole call is therefore modelled as an `Option`. -/

/-- The dict comprehension building `old_map`, iterating `old` left to right
(so the last occurrence of a duplicate key wins); `none` models the
`KeyError` raised by a record without a `Construto` key. -/
def buildOldMap (m : Record) : List Record → Option Record
  | [] => some m
  | i :: rest =>
    match rget i "Construto" with
    | none => none
    | some k => buildOldMap (rset m k (rgetD i "Status" "")) rest

/-- The list comprehension over `new`, in order: a transition is emitted iff
the record's `Construto` is a key of `old_map` and the mapped old status
differs from `i.get("Status", "")`. -/
def diffNew (oldMap : Record) : List Record → Option (List (String × String × String))
  | [] => some []
  | i :: rest =>
    match rget i "Construto" with
    | none => none
    | some k =>
      (diffNew oldMap rest).map (fun ts =>
        match rget oldMap k with
        | some sOld =>
          if sOld ≠ rgetD i "Status" "" then (k, sOld, rgetD i "Status" "") :: ts else ts
        | none => ts)

/-- `diff_status(old, new)`. -/
def diff_status (old new : List Record) : Option (List (String × String × String)) :=
  (buildOldMap [] old).bind (fun m => diffNew m new)

/-- The spec's description of the detector, stated from its words for the
refinement proof: a one-shot lookup from the old snapshot's `Construto` to
its status in which the last occurrence of a duplicate key wins. -/
def specOldLookup (old : List Record) (k : String) : Option String :=
  (old.reverse.find? (fun i => rget i "Construto" == some k)).map
    (fun i => rgetD i "Status" "")

/-- The spec's description of the detector: for each record of the new
snapshot in order, emit a transition iff its key exists in the lookup and
the old status differs by exact string equality. -/
def diffSpec (old new : List Record) : List (String × String × String) :=
  new.filterMap (fun i =>
    match rget i "Construto" with
    | none => none
    | some k =>
      match specOldLookup old k with
      | some sOld =>
        if sOld ≠ rgetD i "Status" "" then some (k, sOld, rgetD i "Status" "") else none
      | none => none)

/-! ### Orchestrator (`main`)

`main` wraps only the fetch in `try`/`except`; every later stage runs bare.
The environment fixes the outcome of each effect; the trace records which
externally visible actions completed before `main` returned or a raised
exception escaped it. -/

/-- The effect outcomes one run of `main` can encounter. -/
structure Env where
  /-- Result of `fetch_from_url()`: `none` models a raised exception. -/
  fetchResult : Option (List Record)
  /-- `save_json` on the timestamped file raises. -/
  saveJsonFails : Bool
  /-- `save_excel` raises. -/
  saveExcelFails : Bool
  /-- `generate_word` raises. -/
  genWordFails : Bool
  /-- `PREVIOUS_DATA_FILE.exists()`. -/
  prevExists : Bool
  /-- Result of `load_json(PREVIOUS_DATA_FILE)`: `none` models a raised exception. -/
  prevLoad : Option (List Record)
  /-- The SMTP dispatch inside `send_email` fails (caught internally). -/
  emailFails : Bool
  /-- `save_json` on `PREVIOUS_DATA_FILE` raises. -/
  saveHistFails : Bool
deriving Repr, DecidableEq

/-- The externally visible actions a run completed. -/
structure Trace where
  wroteJson : Bool := false
  wroteExcel : Bool := false
  wroteWord : Bool := false
  /-- The argument `main` passed to `send_email`, when it was called. -/
  emailed : Option (List (String × String × String)) := none
  historyUpdated : Bool := false
deriving Repr, DecidableEq

/-- How one run of `main` ended. -/
inductive Outcome where
  /-- The fetch raised; caught, logged, early `return`. -/
  | abortedFetch
  /-- Zero records extracted; logged, early `return`. -/
  | abortedEmpty
  /-- `main` returned normally. -/
  | completed
  /-- An exception escaped `main` from the named stage. -/
  | raised (stage : String)
deriving Repr, DecidableEq

/-- The body of `main` over an effect environment. -/
def mainRun (env : Env) : Outcome × Trace :=
  match env.fetchResult with
  | none => (Outcome.abortedFetch, {})
  | some instruments =>
    if instruments = [] then (Outcome.abortedEmpty, {})
    else if env.saveJsonFails then (Outcome.raised "save_json", {})
    else
      let t1 : Trace := { wroteJson := true }
      if env.saveExcelFails then (Outcome.raised "save_excel", t1)
      else
        let t2 := { t1 with wroteExcel := true }
        if env.genWordFails then (Outcome.raised "generate_word", t2)
        else
          let t3 := { t2 with wroteWord := true }
          if env.prevExists then
            match env.prevLoad with
            | none => (Outcome.raised "load_json", t3)
            | some oldData =>
              match diff_status oldData instruments with
              | none => (Outcome.raised "diff_status", t3)
              | some changes =>
                let t4 := { t3 with emailed := some changes }
                if env.saveHistFails then (Outcome.raised "save_json_history", t4)
                else (Outcome.completed, { t4 with historyUpdated := true })
          else
            let t4 := { t3 with emailed := some ([] : List (String × String × String)) }
            if env.saveHistFails then (Outcome.raised "save_json_history", t4)
            else (Outcome.completed, { t4 with historyUpdated := true })

/-! ## Lemmas about record (dict) operations -/

theorem rget_rset_self (r : Record) (k v : String) : rget (rset r k v) k = some v := by
  unfold rset
  by_cases h : (r.find? (fun p => p.1 == k)).isSome
  · rw [if_pos h]
    unfold rget
    rw [List.find?_map]
    have hpred : ((fun p : String × String => p.1 == k) ∘
        (fun p : String × String => if p.1 == k then (k, v) else p)) =
        (fun p : String × String => p.1 == k) := by
      funext p
      by_cases hp : p.1 = k <;> simp [hp]
    rw [hpred]
    obtain ⟨p0, hp0⟩ := Option.isSome_iff_exists.mp h
    have hp0k : p0.1 = k := by simpa using List.find?_some hp0
    rw [hp0]
    simp [hp0k]
  · rw [if_neg h]
    have hnone : r.find? (fun p => p.1 == k) = none := Option.not_isSome_iff_eq_none.mp h
    unfold rget
    rw [List.find?_append, hnone]
    simp

theorem rget_rset_ne (r : Record) (k v k' : String) (h : k' ≠ k) :
    rget (rset r k v) k' = rget r k' := by
  unfold rset
  by_cases hf : (r.find? (fun p => p.1 == k)).isSome
  · rw [if_pos hf]
    unfold rget
    rw [List.find?_map]
    have hpred : ((fun p : String × String => p.1 == k') ∘
        (fun p : String × String => if p.1 == k then (k, v) else p)) =
        (fun p : String × String => p.1 == k') := by
      funext p
      by_cases hp : p.1 = k
      · simp [hp, Ne.symm h]
      · simp [hp]
    rw [hpred]
    cases hfind : r.find? (fun p => p.1 == k') with
    | none => simp
    | some p0 =>
      have hp0 : p0.1 = k' := by simpa using List.find?_some hfind
      have hp0ne : ¬(p0.1 = k) := by
        rw [hp0]; exact h
      simp [hp0ne]
  · rw [if_neg hf]
    unfold rget
    rw [List.find?_append]
    have hsing : List.find? (fun p : String × String => p.1 == k') [(k, v)] = none := by
      simp [Ne.symm h]
    rw [hsing]
    cases r.find? (fun p => p.1 == k') <;> simp

theorem rget_rset (r : Record) (k v k' : String) :
    rget (rset r k v) k' = if k' = k then some v else rget r k' := by
  by_cases h : k' = k
  · subst h; simp [rget_rset_self]
  · simp [h, rget_rset_ne r k v k' h]

theorem mem_rkeys_iff_find (r : Record) (k : String) :
    k ∈ rkeys r ↔ (r.find? (fun p => p.1 == k)).isSome := by
  rw [List.find?_isSome]
  constructor
  · intro h
    obtain ⟨p, hp, hpk⟩ := List.mem_map.mp h
    exact ⟨p, hp, by simp [beq_iff_eq, hpk]⟩
  · rintro ⟨p, hp, hpk⟩
    exact List.mem_map.mpr ⟨p, hp, eq_of_beq hpk⟩

theorem rkeys_rset_of_mem (r : Record) (k v : String) (h : k ∈ rkeys r) :
    rkeys (rset r k v) = rkeys r := by
  unfold rset
  rw [if_pos ((mem_rkeys_iff_find r k).mp h)]
  unfold rkeys
  rw [List.map_map]
  apply List.map_congr_left
  intro p _
  by_cases hp : p.1 = k <;> simp [hp]

theorem rkeys_rset_of_not_mem (r : Record) (k v : String) (h : k ∉ rkeys r) :
    rkeys (rset r k v) = rkeys r ++ [k] := by
  unfold rset
  rw [if_neg (fun hs => h ((mem_rkeys_iff_find r k).mpr hs))]
  simp [rkeys]

/-! ## The canonical key set of each parser's records -/

theorem rkeys_initRecord : rkeys initRecord = canonicalFields := rfl

theorem fmGet_mem_canonical (label k : String) (h : fmGet label = some k) :
    k ∈ canonicalFields := by
  unfold fmGet at h
  obtain ⟨p, hp, hpk⟩ := Option.map_eq_some'.mp h
  exact hpk ▸ List.mem_map.mpr ⟨p, List.mem_of_find?_eq_some hp, rfl⟩

theorem rkeys_parseRow (rec : Record) (row : PanelRow)
    (h : canonicalFields ⊆ rkeys rec) : rkeys (parseRow rec row) = rkeys rec := by
  unfold parseRow
  cases row.label with
  | none => rfl
  | some lt =>
    cases row.value8 <|> row.value10 with
    | none => rfl
    | some vt =>
      simp only []
      cases hk : fmGet (pyRstripColons lt) with
      | none => rfl
      | some k => exact rkeys_rset_of_mem rec k vt (h (fmGet_mem_canonical _ k hk))

theorem rkeys_foldl_parseRow (rows : List PanelRow) (rec : Record)
    (h : canonicalFields ⊆ rkeys rec) :
    rkeys (rows.foldl parseRow rec) = rkeys rec := by
  induction rows generalizing rec with
  | nil => rfl
  | cons row rows ih =>
    rw [List.foldl_cons]
    have h1 := rkeys_parseRow rec row h
    rw [ih (parseRow rec row) (h1 ▸ h), h1]

theorem rkeys_applyDetail (rec : Record) (d : DetailItem)
    (h : canonicalFields ⊆ rkeys rec) : rkeys (applyDetail rec d) = rkeys rec := by
  unfold applyDetail
  cases hk : fmGet (pyRstripColons d.label) with
  | none => rfl
  | some k => exact rkeys_rset_of_mem rec k _ (h (fmGet_mem_canonical _ k hk))

theorem rkeys_foldl_applyDetail (items : List DetailItem) (rec : Record)
    (h : canonicalFields ⊆ rkeys rec) :
    rkeys (items.foldl applyDetail rec) = rkeys rec := by
  induction items generalizing rec with
  | nil => rfl
  | cons d items ih =>
    rw [List.foldl_cons]
    have h1 := rkeys_applyDetail rec d h
    rw [ih (applyDetail rec d) (h1 ▸ h), h1]

theorem rkeys_parse_html (panels : List Panel) (r : Record)
    (hr : r ∈ parse_html panels) : rkeys r = canonicalFields ++ ["Nome"] := by
  obtain ⟨p, _, hp⟩ := List.mem_filterMap.mp hr
  unfold parsePanel at hp
  cases hh : p.header with
  | none => rw [hh] at hp; exact absurd hp (by simp)
  | some hdr =>
    obtain ⟨ht, badge⟩ := hdr
    rw [hh] at hp
    simp only [Option.some.injEq] at hp
    subst hp
    have hStatus : "Status" ∈ rkeys initRecord := by
      rw [rkeys_initRecord]; decide
    have h1 : rkeys (rset initRecord "Status" (badge.getD "")) = canonicalFields := by
      rw [rkeys_rset_of_mem _ _ _ hStatus, rkeys_initRecord]
    have hNome : "Nome" ∉ rkeys (rset initRecord "Status" (badge.getD "")) := by
      rw [h1]; decide
    have h2 : rkeys (rset (rset initRecord "Status" (badge.getD "")) "Nome"
        (pyStrip (pyRemove ht (badge.getD "")))) = canonicalFields ++ ["Nome"] := by
      rw [rkeys_rset_of_not_mem _ _ _ hNome, h1]
    rw [rkeys_foldl_parseRow _ _ (by rw [h2]; exact List.subset_append_left _ _), h2]

theorem rkeys_colspanFold (rec0 : Record) (c : Option (List DetailItem))
    (h : canonicalFields ⊆ rkeys rec0) : rkeys (colspanFold rec0 c) = rkeys rec0 := by
  cases c with
  | none => rfl
  | some items => exact rkeys_foldl_applyDetail items rec0 h

theorem rkeys_detailFold (rec0 : Record) (d : Option TableRow)
    (h : canonicalFields ⊆ rkeys rec0) : rkeys (detailFold rec0 d) = rkeys rec0 := by
  cases d with
  | none => rfl
  | some dr => exact rkeys_colspanFold rec0 dr.colspanTd h

theorem rkeys_parsePair (s : TableRow) (d : Option TableRow) (r : Record)
    (hr : r ∈ parsePair s d) : rkeys r = canonicalFields := by
  unfold parsePair at hr
  by_cases hlen : s.tds.length < 4
  · rw [if_pos hlen] at hr; exact absurd hr (by simp)
  · rw [if_neg hlen] at hr
    simp only [List.mem_singleton] at hr
    subst hr
    have k1 : rkeys (rset initRecord "Status" (s.tds.getD 0 "")) = canonicalFields := by
      rw [rkeys_rset_of_mem _ _ _ (by rw [rkeys_initRecord]; decide), rkeys_initRecord]
    have k2 : rkeys (rset (rset initRecord "Status" (s.tds.getD 0 ""))
        "Autores" (s.tds.getD 1 "")) = canonicalFields := by
      rw [rkeys_rset_of_mem _ _ _ (by rw [k1]; decide), k1]
    have k3 : rkeys (rset (rset (rset initRecord "Status" (s.tds.getD 0 ""))
        "Autores" (s.tds.getD 1 "")) "Editora" (s.tds.getD 2 "")) = canonicalFields := by
      rw [rkeys_rset_of_mem _ _ _ (by rw [k2]; decide), k2]
    have k4 : rkeys (rset (rset (rset (rset initRecord "Status" (s.tds.getD 0 ""))
        "Autores" (s.tds.getD 1 "")) "Editora" (s.tds.getD 2 ""))
        "Construto" (s.tds.getD 3 "")) = canonicalFields := by
      rw [rkeys_rset_of_mem _ _ _ (by rw [k3]; decide), k3]
    rw [rkeys_detailFold _ _ (by rw [k4]; exact fun x hx => hx), k4]

theorem rkeys_parseRowPairs (l : List TableRow) (r : Record)
    (hr : r ∈ parseRowPairs l) : rkeys r = canonicalFields := by
  induction l using parseRowPairs.induct with
  | case1 => exact absurd hr (by simp [parseRowPairs])
  | case2 s => exact rkeys_parsePair s none r hr
  | case3 s d rest ih =>
    rw [parseRowPairs] at hr
    rcases List.mem_append.mp hr with h | h
    · exact rkeys_parsePair s (some d) r h
    · exact ih h

theorem rkeys_parse_table (t : Table) (r : Record) (hr : r ∈ parse_table t) :
    rkeys r = canonicalFields :=
  rkeys_parseRowPairs (t.rows.drop 1) r hr

theorem rkeys_linkRecord (t : String) : rkeys (linkRecord t) = canonicalFields := by
  unfold linkRecord
  rw [rkeys_rset_of_mem _ _ _ (by rw [rkeys_initRecord]; decide), rkeys_initRecord]

theorem rkeys_parse_links (doc : List LinkNode) (rs : List Record) (r : Record)
    (hok : parse_links doc = Except.ok rs) (hr : r ∈ rs) :
    rkeys r = canonicalFields := by
  induction doc generalizing rs with
  | nil =>
    rw [parse_links] at hok
    cases hok
    exact absurd hr (by simp)
  | cons n rest ih =>
    cases n with
    | anchor t =>
      cases rest with
      | nil =>
        rw [parse_links] at hok
        by_cases hp : pyStartsWith (pyStrip t) "+"
        · rw [if_pos hp] at hok
          cases hok
          rw [List.mem_singleton.mp hr]
          exact rkeys_linkRecord t
        · rw [if_neg hp] at hok
          exact ih rs hok hr
      | cons m rest' =>
        rw [parse_links] at hok
        by_cases hp : pyStartsWith (pyStrip t) "+"
        · rw [if_pos hp] at hok
          exact Except.noConfusion hok
        · rw [if_neg hp] at hok
          exact ih rs hok hr
    | textNode s =>
      rw [parse_links] at hok
      exact ih rs hok hr
    | tagNode s =>
      rw [parse_links] at hok
      exact ih rs hok hr

/-! ## Lemmas about the change detector -/

theorem specOldLookup_nil (k : String) : specOldLookup [] k = none := rfl

theorem specOldLookup_cons (i : Record) (rest : List Record) (k ki : String)
    (hki : rget i "Construto" = some ki) :
    specOldLookup (i :: rest) k =
      ((specOldLookup rest k).elim
        (if ki = k then some (rgetD i "Status" "") else none) some) := by
  unfold specOldLookup
  rw [List.reverse_cons, List.find?_append]
  cases hfr : rest.reverse.find? (fun j => rget j "Construto" == some k) with
  | none =>
    simp only [hfr, Option.none_or, Option.map_none', Option.elim]
    rw [List.find?_singleton]
    by_cases hk : ki = k
    · rw [if_pos (by simp [hki, hk]), if_pos hk]
      rfl
    · rw [if_neg (by simp [hki, hk]), if_neg hk]
      rfl
  | some j =>
    simp [hfr]

theorem buildOldMap_sound (old : List Record) (m : Record)
    (h : ∀ i ∈ old, (rget i "Construto").isSome) :
    ∃ M, buildOldMap m old = some M ∧
      ∀ k, rget M k = ((specOldLookup old k).elim (rget m k) some) := by
  induction old generalizing m with
  | nil =>
    refine ⟨m, rfl, fun k => ?_⟩
    rw [specOldLookup_nil]
    rfl
  | cons i rest ih =>
    obtain ⟨ki, hki⟩ := Option.isSome_iff_exists.mp (h i (List.mem_cons_self i rest))
    have hrest : ∀ j ∈ rest, (rget j "Construto").isSome :=
      fun j hj => h j (List.mem_cons_of_mem i hj)
    obtain ⟨M, hM, hMk⟩ := ih (rset m ki (rgetD i "Status" "")) hrest
    refine ⟨M, ?_, fun k => ?_⟩
    · rw [buildOldMap, hki]
      exact hM
    · rw [hMk k, specOldLookup_cons i rest k ki hki]
      cases specOldLookup rest k with
      | some s => rfl
      | none =>
        simp only [Option.elim]
        rw [rget_rset]
        by_cases hk : ki = k
        · rw [if_pos hk.symm, if_pos hk]
        · rw [if_neg (fun hh => hk hh.symm), if_neg hk]

theorem diffNew_sound (old : List Record) (M : Record) (new : List Record)
    (hM : ∀ k, rget M k = specOldLookup old k)
    (h : ∀ i ∈ new, (rget i "Construto").isSome) :
    diffNew M new = some (diffSpec old new) := by
  induction new with
  | nil => rfl
  | cons i rest ih =>
    obtain ⟨ki, hki⟩ := Option.isSome_iff_exists.mp (h i (List.mem_cons_self i rest))
    have hrest : ∀ j ∈ rest, (rget j "Construto").isSome :=
      fun j hj => h j (List.mem_cons_of_mem i hj)
    simp only [diffNew, hki, ih hrest, Option.map_some']
    unfold diffSpec
    rw [List.filterMap_cons]
    simp only [hki, hM ki]
    cases specOldLookup old ki with
    | none => rfl
    | some sOld =>
      by_cases hs : sOld ≠ rgetD i "Status" ""
      · simp [hs]
      · simp [hs]

theorem diff_status_sound (old new : List Record)
    (h1 : ∀ i ∈ old, (rget i "Construto").isSome)
    (h2 : ∀ i ∈ new, (rget i "Construto").isSome) :
    diff_status old new = some (diffSpec old new) := by
  obtain ⟨M, hM, hMk⟩ := buildOldMap_sound old [] h1
  have hM' : ∀ k, rget M k = specOldLookup old k := by
    intro k
    rw [hMk k]
    cases specOldLookup old k with
    | none => rfl
    | some s => rfl
  unfold diff_status
  rw [hM, Option.some_bind]
  exact diffNew_sound old M new hM' h2

theorem buildOldMap_missing (old : List Record) (i : Record) (hi : i ∈ old)
    (h : rget i "Construto" = none) (m : Record) : buildOldMap m old = none := by
  induction old generalizing m with
  | nil => exact absurd hi (by simp)
  | cons j rest ih =>
    cases List.mem_cons.mp hi with
    | inl heq =>
      subst heq
      rw [buildOldMap, h]
    | inr hmem =>
      cases hj : rget j "Construto" with
      | none => rw [buildOldMap, hj]
      | some kj =>
        rw [buildOldMap, hj]
        exact ih hmem _

theorem diffNew_missing (M : Record) (new : List Record) (i : Record) (hi : i ∈ new)
    (h : rget i "Construto" = none) : diffNew M new = none := by
  induction new with
  | nil => exact absurd hi (by simp)
  | cons j rest ih =>
    cases List.mem_cons.mp hi with
    | inl heq =>
      subst heq
      rw [diffNew, h]
    | inr hmem =>
      cases hj : rget j "Construto" with
      | none => rw [diffNew, hj]
      | some kj =>
        rw [diffNew, hj, ih hmem]
        rfl

/-- Drop the `Nome` key from a record, to state that the detector never
consults the instrument title. -/
def scrubNome (r : Record) : Record := r.filter (fun p => p.1 != "Nome")

theorem rget_scrubNome (r : Record) (k : String) (h : k ≠ "Nome") :
    rget (scrubNome r) k = rget r k := by
  induction r with
  | nil => rfl
  | cons p r ih =>
    unfold scrubNome at ih ⊢
    rw [List.filter_cons]
    by_cases hp : p.1 = "Nome"
    · rw [if_neg (by simp [hp])]
      rw [ih]
      unfold rget
      rw [List.find?_cons_of_neg _ (by simp [hp, Ne.symm h])]
    · by_cases hpk : p.1 = k
      · rw [if_pos (by simp [hp])]
        unfold rget
        rw [List.find?_cons_of_pos _ (by simp [hpk]),
          List.find?_cons_of_pos _ (by simp [hpk])]
      · rw [if_pos (by simp [hp])]
        unfold rget
        rw [List.find?_cons_of_neg _ (by simp [hpk]),
          List.find?_cons_of_neg _ (by simp [hpk])]
        exact ih

theorem buildOldMap_scrub (old : List Record) (m : Record) :
    buildOldMap m (old.map scrubNome) = buildOldMap m old := by
  induction old generalizing m with
  | nil => rfl
  | cons i rest ih =>
    simp only [List.map_cons, buildOldMap]
    rw [rget_scrubNome i "Construto" (by decide)]
    cases rget i "Construto" with
    | none => rfl
    | some ki =>
      simp only []
      unfold rgetD
      rw [rget_scrubNome i "Status" (by decide)]
      exact ih _

theorem diffNew_scrub (M : Record) (new : List Record) :
    diffNew M (new.map scrubNome) = diffNew M new := by
  induction new with
  | nil => rfl
  | cons i rest ih =>
    simp only [List.map_cons, diffNew]
    rw [rget_scrubNome i "Construto" (by decide)]
    cases rget i "Construto" with
    | none => rfl
    | some ki =>
      simp only [ih]
      unfold rgetD
      rw [rget_scrubNome i "Status" (by decide)]

theorem diff_status_scrub (old new : List Record) :
    diff_status (old.map scrubNome) (new.map scrubNome) = diff_status old new := by
  unfold diff_status
  rw [buildOldMap_scrub]
  have hfun : (fun m => diffNew m (new.map scrubNome)) = (fun m => diffNew m new) :=
    funext (fun m => diffNew_scrub m new)
  rw [hfun]

/-! ## Lemmas about JSON persistence -/

theorem foldlM_decode_encode (r : Record) (acc : Record) :
    List.foldlM
      (fun acc p =>
        match p.2 with
        | JVal.str s => some (rset acc p.1 s)
        | _ => none)
      acc (r.map (fun p => (p.1, JVal.str p.2)))
      = some (r.foldl (fun a p => rset a p.1 p.2) acc) := by
  induction r generalizing acc with
  | nil => rfl
  | cons p r ih =>
    rw [List.map_cons, List.foldlM_cons, List.foldl_cons]
    simp only [Option.bind_eq_bind, Option.some_bind]
    exact ih (rset acc p.1 p.2)

theorem rset_append_of_not_mem (m : Record) (p : String × String)
    (h : p.1 ∉ rkeys m) : rset m p.1 p.2 = m ++ [p] := by
  unfold rset
  rw [if_neg (fun hs => h ((mem_rkeys_iff_find m p.1).mpr hs))]

theorem foldl_rset_eq_append (r m : Record) (h : (rkeys (m ++ r)).Nodup) :
    r.foldl (fun a p => rset a p.1 p.2) m = m ++ r := by
  induction r generalizing m with
  | nil => simp
  | cons p r ih =>
    have hkeys : rkeys (m ++ p :: r) = rkeys m ++ p.1 :: rkeys r := by
      simp [rkeys]
    have hnm : p.1 ∉ rkeys m := by
      rw [hkeys] at h
      obtain ⟨-, -, hdisj⟩ := List.nodup_append.mp h
      intro hmem
      exact hdisj hmem (List.mem_cons_self p.1 (rkeys r))
    rw [List.foldl_cons, rset_append_of_not_mem m p hnm]
    have h' : (rkeys ((m ++ [p]) ++ r)).Nodup := by
      rw [List.append_assoc]
      simpa using h
    rw [ih (m ++ [p]) h', List.append_assoc]
    rfl

theorem decodeRecord_encode (r : Record) (h : (rkeys r).Nodup) :
    decodeRecord (r.map (fun p => (p.1, JVal.str p.2))) = some r := by
  unfold decodeRecord
  rw [foldlM_decode_encode r []]
  rw [foldl_rset_eq_append r [] (by simpa using h)]
  simp

theorem mapM_decode_encode (data : List Record) (h : ∀ r ∈ data, (rkeys r).Nodup) :
    (data.map (fun r => JVal.obj (r.map (fun p => (p.1, JVal.str p.2))))).mapM decodeItem
      = some data := by
  induction data with
  | nil => rfl
  | cons r rest ih =>
    rw [List.map_cons, List.mapM_cons]
    have hr : decodeItem (JVal.obj (r.map (fun p => (p.1, JVal.str p.2)))) = some r := by
      rw [decodeItem]
      exact decodeRecord_encode r (h r (List.mem_cons_self r rest))
    rw [hr, ih (fun q hq => h q (List.mem_cons_of_mem r hq))]
    rfl

theorem load_json_save_json (data : List Record) (h : ∀ r ∈ data, (rkeys r).Nodup) :
    load_json (save_json data) = some data := by
  unfold save_json load_json
  exact mapM_decode_encode data h

/-! ## Claim theorems -/

/-- C1 counterexample: the claim says every record of every extractor variant
carries the canonical field set plus `Nome`, but `parse_table` (line 148)
initialises records from `FIELD_MAP.values()` only and never sets `Nome`:
the single record extracted from a header row followed by a four-column
summary row has no `Nome` key at all. -/
theorem c1_keyset_counterexample :
    (parse_table ⟨[⟨[], none⟩, ⟨["Aprovado", "Silva", "Editora X", "Memória"], none⟩]⟩).map
      (fun r => rget r "Nome") = [none] := by decide

/-- C1 (amended): every record emitted by `parse_html` has as its key set
exactly the `FIELD_MAP` internal names plus `Nome`, in that order, with
absent fields defaulted to the empty string; every record emitted by
`parse_table`, and by `parse_links` on the runs where it returns instead of
raising, has exactly the `FIELD_MAP` internal names, without `Nome`. -/
theorem c1_keyset_amended :
    (∀ panels : List Panel, ∀ r ∈ parse_html panels,
      rkeys r = canonicalFields ++ ["Nome"]) ∧
    (∀ t : Table, ∀ r ∈ parse_table t, rkeys r = canonicalFields) ∧
    (∀ (doc : List LinkNode) (rs : List Record), parse_links doc = Except.ok rs →
      ∀ r ∈ rs, rkeys r = canonicalFields) :=
  ⟨fun panels r hr => rkeys_parse_html panels r hr,
   fun t r hr => rkeys_parse_table t r hr,
   fun doc rs hok r hr => rkeys_parse_links doc rs r hok hr⟩

/-- C1 witness: the amended key-set theorem applied to one concrete panel,
one concrete table and one concrete link document. -/
theorem c1_keyset_amended_witness :
    rkeys ((parse_html [⟨some ("Teste XYZ Aprovado", some "Aprovado"), []⟩]).headD [])
      = canonicalFields ++ ["Nome"] ∧
    rkeys ((parse_table ⟨[⟨[], none⟩, ⟨["A", "B", "C", "D"], none⟩]⟩).headD [])
      = canonicalFields ∧
    rkeys (linkRecord "+Memória") = canonicalFields :=
  ⟨c1_keyset_amended.1 [⟨some ("Teste XYZ Aprovado", some "Aprovado"), []⟩]
     ((parse_html [⟨some ("Teste XYZ Aprovado", some "Aprovado"), []⟩]).headD [])
     (by decide),
   c1_keyset_amended.2.1 ⟨[⟨[], none⟩, ⟨["A", "B", "C", "D"], none⟩]⟩
     ((parse_table ⟨[⟨[], none⟩, ⟨["A", "B", "C", "D"], none⟩]⟩).headD [])
     (by decide),
   c1_keyset_amended.2.2 [LinkNode.anchor "+Memória"] [linkRecord "+Memória"]
     rfl (linkRecord "+Memória") (List.mem_singleton.mpr rfl)⟩

/-- C2: `diff_status` refines the spec's description — build a lookup from
the old snapshot's `Construto` to its status (last duplicate occurrence
wins), then emit, in new-snapshot order, one transition per new record whose
key is in the lookup and whose status differs by exact string equality; keys
only in the new snapshot yield nothing.  The hypothesis that every record
carries a `Construto` key reflects that the Python code indexes
`i["Construto"]` unconditionally.  The second conjunct is the claim's
concrete example. -/
theorem c2_diff_status_spec :
    (∀ old new : List Record,
      (∀ i ∈ old, (rget i "Construto").isSome) →
      (∀ i ∈ new, (rget i "Construto").isSome) →
      diff_status old new = some (diffSpec old new)) ∧
    diff_status [[("Construto", "A"), ("Status", "Aprovado")]]
        [[("Construto", "A"), ("Status", "Reprovado")],
         [("Construto", "B"), ("Status", "Aprovado")]]
      = some [("A", "Aprovado", "Reprovado")] :=
  ⟨diff_status_sound, by decide⟩

/-- C2 witness: the refinement applied to the claim's concrete snapshots. -/
theorem c2_diff_status_spec_witness :
    diff_status [[("Construto", "A"), ("Status", "Aprovado")]]
        [[("Construto", "A"), ("Status", "Reprovado")],
         [("Construto", "B"), ("Status", "Aprovado")]]
      = some (diffSpec [[("Construto", "A"), ("Status", "Aprovado")]]
        [[("Construto", "A"), ("Status", "Reprovado")],
         [("Construto", "B"), ("Status", "Aprovado")]]) :=
  c2_diff_status_spec.1 _ _ (by decide) (by decide)

/-- C3 counterexample: the claim says a failure while writing one output
format is reported but blocks neither the other formats nor later stages,
with no exception escaping `main`.  In the code only the fetch is inside
`try`/`except`: when `save_json` raises, the exception escapes `main`, and
the Excel and Word writes, the comparison, the notification and the history
update never run. -/
theorem c3_propagation_counterexample :
    mainRun ⟨some [[("Construto", "A"), ("Status", "Aprovado")]],
        true, false, false, false, none, false, false⟩
      = (Outcome.raised "save_json", {}) := by decide

/-- C3 (amended): only the fetch failure is caught (early return, nothing
written) and a zero-records extraction aborts; every later stage runs bare,
so a failure in `save_json` escapes `main` before anything is written, a
failure in `save_excel` escapes with only the JSON file written, a failure
in `generate_word` escapes with JSON and Excel written, a failure while
loading the previous snapshot or a `KeyError` inside `diff_status` escapes
with all three outputs written but nothing notified, and a failure while
rewriting the history file escapes after the notifier was called (on both
the first-run path and the comparison path) with the history not updated.
Only the notifier's failure is non-fatal (`send_email` catches internally,
so `main` is invariant in it). -/
theorem c3_propagation_amended :
    (∀ env : Env, env.fetchResult = none → mainRun env = (Outcome.abortedFetch, {})) ∧
    (∀ env : Env, env.fetchResult = some [] → mainRun env = (Outcome.abortedEmpty, {})) ∧
    (∀ (env : Env) (l : List Record), env.fetchResult = some l → l ≠ [] →
      env.saveJsonFails = true → mainRun env = (Outcome.raised "save_json", {})) ∧
    (∀ (env : Env) (l : List Record), env.fetchResult = some l → l ≠ [] →
      env.saveJsonFails = false → env.saveExcelFails = true →
      mainRun env = (Outcome.raised "save_excel", { wroteJson := true })) ∧
    (∀ (env : Env) (l : List Record), env.fetchResult = some l → l ≠ [] →
      env.saveJsonFails = false → env.saveExcelFails = false →
      env.genWordFails = true →
      mainRun env = (Outcome.raised "generate_word",
        { wroteJson := true, wroteExcel := true })) ∧
    (∀ (env : Env) (l : List Record), env.fetchResult = some l → l ≠ [] →
      env.saveJsonFails = false → env.saveExcelFails = false →
      env.genWordFails = false → env.prevExists = true → env.prevLoad = none →
      mainRun env = (Outcome.raised "load_json",
        { wroteJson := true, wroteExcel := true, wroteWord := true })) ∧
    (∀ (env : Env) (l old : List Record), env.fetchResult = some l → l ≠ [] →
      env.saveJsonFails = false → env.saveExcelFails = false →
      env.genWordFails = false → env.prevExists = true → env.prevLoad = some old →
      diff_status old l = none →
      mainRun env = (Outcome.raised "diff_status",
        { wroteJson := true, wroteExcel := true, wroteWord := true })) ∧
    (∀ (env : Env) (l : List Record), env.fetchResult = some l → l ≠ [] →
      env.saveJsonFails = false → env.saveExcelFails = false →
      env.genWordFails = false → env.prevExists = false → env.saveHistFails = true →
      mainRun env = (Outcome.raised "save_json_history",
        { wroteJson := true, wroteExcel := true, wroteWord := true,
          emailed := some [] })) ∧
    (∀ (env : Env) (l old : List Record)
        (changes : List (String × String × String)),
      env.fetchResult = some l → l ≠ [] →
      env.saveJsonFails = false → env.saveExcelFails = false →
      env.genWordFails = false → env.prevExists = true → env.prevLoad = some old →
      diff_status old l = some changes → env.saveHistFails = true →
      mainRun env = (Outcome.raised "save_json_history",
        { wroteJson := true, wroteExcel := true, wroteWord := true,
          emailed := some changes })) ∧
    (∀ (env : Env) (b b' : Bool),
      mainRun { env with emailFails := b } = mainRun { env with emailFails := b' }) := by
  refine ⟨?_, ?_, ?_, ?_, ?_, ?_, ?_, ?_, ?_, ?_⟩
  · intro env h
    simp [mainRun, h]
  · intro env h
    simp [mainRun, h]
  · intro env l hf hl hs
    simp [mainRun, hf, hl, hs]
  · intro env l hf hl hsj hse
    simp [mainRun, hf, hl, hsj, hse]
  · intro env l hf hl hsj hse hgw
    simp [mainRun, hf, hl, hsj, hse, hgw]
  · intro env l hf hl hsj hse hgw hpe hpl
    simp [mainRun, hf, hl, hsj, hse, hgw, hpe, hpl]
  · intro env l old hf hl hsj hse hgw hpe hpl hdiff
    simp [mainRun, hf, hl, hsj, hse, hgw, hpe, hpl, hdiff]
  · intro env l hf hl hsj hse hgw hpe hsh
    simp [mainRun, hf, hl, hsj, hse, hgw, hpe, hsh]
  · intro env l old changes hf hl hsj hse hgw hpe hpl hdiff hsh
    simp [mainRun, hf, hl, hsj, hse, hgw, hpe, hpl, hdiff, hsh]
  · intro env b b'
    cases env
    rfl

/-- C3 witness: every case of the amended propagation statement applied at a
concrete environment — aborted fetch, zero records, each escaping stage
(`save_json`, `save_excel`, `generate_word`, `load_json`, `diff_status`,
history rewrite on both paths) with the trace each leaves behind. -/
theorem c3_propagation_amended_witness :
    mainRun ⟨none, false, false, false, false, none, false, false⟩
      = (Outcome.abortedFetch, {}) ∧
    mainRun ⟨some [], false, false, false, false, none, false, false⟩
      = (Outcome.abortedEmpty, {}) ∧
    mainRun ⟨some [[("Construto", "B")]], true, false, false, false, none, false, false⟩
      = (Outcome.raised "save_json", {}) ∧
    mainRun ⟨some [[("Construto", "B")]], false, true, false, false, none, false, false⟩
      = (Outcome.raised "save_excel", { wroteJson := true }) ∧
    mainRun ⟨some [[("Construto", "B")]], false, false, true, false, none, false, false⟩
      = (Outcome.raised "generate_word", { wroteJson := true, wroteExcel := true }) ∧
    mainRun ⟨some [[("Construto", "B")]], false, false, false, true, none, false, false⟩
      = (Outcome.raised "load_json",
        { wroteJson := true, wroteExcel := true, wroteWord := true }) ∧
    mainRun ⟨some [[("Nome", "X")]], false, false, false, true,
        some [[("Nome", "X")]], false, false⟩
      = (Outcome.raised "diff_status",
        { wroteJson := true, wroteExcel := true, wroteWord := true }) ∧
    mainRun ⟨some [[("Construto", "B")]], false, false, false, false, none, false, true⟩
      = (Outcome.raised "save_json_history",
        { wroteJson := true, wroteExcel := true, wroteWord := true,
          emailed := some [] }) ∧
    mainRun ⟨some [[("Construto", "A"), ("Status", "Reprovado")]],
        false, false, false, true,
        some [[("Construto", "A"), ("Status", "Aprovado")]], false, true⟩
      = (Outcome.raised "save_json_history",
        { wroteJson := true, wroteExcel := true, wroteWord := true,
          emailed := some [("A", "Aprovado", "Reprovado")] }) :=
  ⟨c3_propagation_amended.1 _ rfl,
   c3_propagation_amended.2.1 _ rfl,
   c3_propagation_amended.2.2.1 _ [[("Construto", "B")]] rfl (by decide) rfl,
   c3_propagation_amended.2.2.2.1 _ [[("Construto", "B")]] rfl (by decide) rfl rfl,
   c3_propagation_amended.2.2.2.2.1 _ [[("Construto", "B")]] rfl (by decide) rfl rfl rfl,
   c3_propagation_amended.2.2.2.2.2.1 _ [[("Construto", "B")]]
     rfl (by decide) rfl rfl rfl rfl rfl,
   c3_propagation_amended.2.2.2.2.2.2.1 _ [[("Nome", "X")]] [[("Nome", "X")]]
     rfl (by decide) rfl rfl rfl rfl rfl (by decide),
   c3_propagation_amended.2.2.2.2.2.2.2.1 _ [[("Construto", "B")]]
     rfl (by decide) rfl rfl rfl rfl rfl,
   c3_propagation_amended.2.2.2.2.2.2.2.2.1 _
     [[("Construto", "A"), ("Status", "Reprovado")]]
     [[("Construto", "A"), ("Status", "Aprovado")]]
     [("A", "Aprovado", "Reprovado")]
     rfl (by decide) rfl rfl rfl rfl rfl (by decide) rfl⟩

/-- C4: the claim describes the sibling scan of `parse_links`, but the code
checks `isinstance(sib, BeautifulSoup.Tag)` — and the bs4 `BeautifulSoup`
class has no `Tag` (nor `NavigableString`) attribute, those being
module-level names of `bs4` — so the first sibling of any `"+"`-anchor
raises `AttributeError` and the whole call dies.  Only an anchor with no
following sibling survives to emit its record, whose Construct is the
anchor text stripped of the leading `"+"` and whitespace. -/
theorem c4_parse_links_attribute_error :
    parse_links [LinkNode.anchor "+Memória", LinkNode.textNode "Status: Aprovado"]
      = Except.error bs4AttrError ∧
    parse_links [LinkNode.anchor "+Memória"] = Except.ok [linkRecord "+Memória"] ∧
    rget (linkRecord "+Memória") "Construto" = some "Memória" :=
  ⟨rfl, rfl, by decide⟩

/-- C5 counterexample: the claim says the first run passes an explicit
"first run" marker to the notifier, distinguishing it from a run whose
comparison found no changes.  In the code both paths call
`send_email([])` — the notifier receives exactly the same argument, and no
marker exists: the run with no prior snapshot and the run whose comparison
found no changes produce identical notifier calls. -/
theorem c5_first_run_counterexample :
    (mainRun ⟨some [[("Construto", "A"), ("Status", "Aprovado")]],
        false, false, false, false, none, false, false⟩).2.emailed = some [] ∧
    (mainRun ⟨some [[("Construto", "A"), ("Status", "Aprovado")]],
        false, false, false, true,
        some [[("Construto", "A"), ("Status", "Aprovado")]], false, false⟩).2.emailed
      = some [] ∧
    (mainRun ⟨some [[("Construto", "A"), ("Status", "Aprovado")]],
        false, false, false, false, none, false, false⟩).2
      = (mainRun ⟨some [[("Construto", "A"), ("Status", "Aprovado")]],
        false, false, false, true,
        some [[("Construto", "A"), ("Status", "Aprovado")]], false, false⟩).2 := by
  refine ⟨by decide, by decide, by decide⟩

/-- C5 (amended): when no prior snapshot file exists the orchestrator skips
the comparison and calls the notifier with an empty transition list — the
very same call made when a comparison finds no changes — and then proceeds
to update the history; no first-run marker is passed. -/
theorem c5_first_run_amended :
    ∀ (env : Env) (l : List Record), env.fetchResult = some l → l ≠ [] →
      env.saveJsonFails = false → env.saveExcelFails = false →
      env.genWordFails = false → env.prevExists = false →
      env.saveHistFails = false →
      mainRun env = (Outcome.completed,
        { wroteJson := true, wroteExcel := true, wroteWord := true,
          emailed := some [], historyUpdated := true }) := by
  intro env l hf hl h1 h2 h3 h4 h5
  simp [mainRun, hf, hl, h1, h2, h3, h4, h5]

/-- C5 witness: a concrete first run. -/
theorem c5_first_run_amended_witness :
    mainRun ⟨some [[("Construto", "C"), ("Status", "Aprovado")]],
        false, false, false, false, none, false, false⟩
      = (Outcome.completed,
        { wroteJson := true, wroteExcel := true, wroteWord := true,
          emailed := some [], historyUpdated := true }) :=
  c5_first_run_amended _ [[("Construto", "C"), ("Status", "Aprovado")]]
    rfl (by decide) rfl rfl rfl rfl rfl

/-- C6: a document with no panels, table rows or anchors makes each extractor
return an empty sequence rather than raise; extracting zero records makes
`main` abort with the distinct "no data" outcome — different from the fetch
abort — writing nothing, notifying nobody and touching no history. -/
theorem c6_empty_document :
    parse_html [] = [] ∧
    parse_table ⟨[]⟩ = [] ∧
    parse_links [] = Except.ok [] ∧
    (∀ (sj se gw pe ef sh : Bool) (pl : Option (List Record)),
      mainRun ⟨some [], sj, se, gw, pe, pl, ef, sh⟩ = (Outcome.abortedEmpty, {})) ∧
    (Outcome.abortedEmpty = Outcome.abortedFetch) = False :=
  ⟨rfl, rfl, rfl, fun _ _ _ _ _ _ _ => rfl, eq_false (by decide)⟩

/-- C7: in panel extraction the badge text becomes the status and is removed
as a literal substring from the header's full text, the stripped remainder
becoming the name; in particular a panel whose header text is
`"Teste XYZ Aprovado"` with badge `"Aprovado"` yields
`Nome = "Teste XYZ"`, `Status = "Aprovado"`. -/
theorem c7_badge_removal :
    (∀ ht b : String,
      (parse_html [⟨some (ht, some b), []⟩]).map
          (fun r => (rget r "Nome", rget r "Status"))
        = [(some (pyStrip (pyRemove ht b)), some b)]) ∧
    (parse_html [⟨some ("Teste XYZ Aprovado", some "Aprovado"), []⟩]).map
        (fun r => (rget r "Nome", rget r "Status"))
      = [(some "Teste XYZ", some "Aprovado")] := by
  constructor
  · intro ht b
    have h1 : parse_html [⟨some (ht, some b), []⟩] =
        [rset (rset initRecord "Status" b) "Nome" (pyStrip (pyRemove ht b))] := rfl
    rw [h1]
    simp only [List.map_cons, List.map_nil]
    rw [rget_rset_self, rget_rset_ne _ _ _ _ (by decide), rget_rset_self]
  · decide

/-- C8: serializing a record sequence with `save_json` and reloading it with
`load_json` returns the sequence unchanged, records and fields in their
original order; the hypothesis that each record's keys are distinct is the
dict invariant every record built by the code satisfies. -/
theorem c8_json_roundtrip :
    ∀ data : List Record, (∀ r ∈ data, (rkeys r).Nodup) →
      load_json (save_json data) = some data :=
  load_json_save_json

/-- C8 witness: the round trip on a concrete two-record snapshot. -/
theorem c8_json_roundtrip_witness :
    load_json (save_json
        [[("Construto", "A"), ("Status", "Aprovado")],
         [("Construto", "B"), ("Status", "Reprovado"), ("Autores", "Silva")]])
      = some
        [[("Construto", "A"), ("Status", "Aprovado")],
         [("Construto", "B"), ("Status", "Reprovado"), ("Autores", "Silva")]] :=
  c8_json_roundtrip
    [[("Construto", "A"), ("Status", "Aprovado")],
     [("Construto", "B"), ("Status", "Reprovado"), ("Autores", "Silva")]]
    (by decide)

/-- C9 counterexample: the claim says the detector falls back to the
instrument title (`Nome`) as identity key when `Construto` is unavailable.
It does not: `diff_status` indexes `i["Construto"]` unconditionally, so two
snapshots whose records carry only `Nome` and `Status` make the call raise
`KeyError` (modelled as `none`) instead of correlating by title. -/
theorem c9_identity_key_counterexample :
    diff_status [[("Nome", "Teste X"), ("Status", "Aprovado")]]
        [[("Nome", "Teste X"), ("Status", "Reprovado")]] = none ∧
    (diff_status [[("Nome", "Teste X"), ("Status", "Aprovado")]]
        [[("Nome", "Teste X"), ("Status", "Reprovado")]]
      = some [("Teste X", "Aprovado", "Reprovado")]) = False :=
  ⟨rfl, eq_false (by decide)⟩

/-- C9 (amended): the identity key `diff_status` uses is the record's
`Construto` value exclusively: a record without that key — in either
snapshot — makes the call raise `KeyError` (modelled as `none`), and the
result never depends on any `Nome` field. -/
theorem c9_identity_key_amended :
    (∀ (old new : List Record) (i : Record), i ∈ old →
      rget i "Construto" = none → diff_status old new = none) ∧
    (∀ (old new : List Record) (i : Record), i ∈ new →
      rget i "Construto" = none → diff_status old new = none) ∧
    (∀ old new : List Record,
      diff_status (old.map scrubNome) (new.map scrubNome) = diff_status old new) := by
  refine ⟨?_, ?_, fun old new => diff_status_scrub old new⟩
  · intro old new i hi h
    unfold diff_status
    rw [buildOldMap_missing old i hi h []]
    rfl
  · intro old new i hi h
    unfold diff_status
    cases hB : buildOldMap [] old with
    | none => rfl
    | some M =>
      rw [Option.some_bind]
      exact diffNew_missing M new i hi h

/-- C9 witness: the amended statement at concrete snapshots. -/
theorem c9_identity_key_amended_witness :
    diff_status [[("Nome", "Teste Y"), ("Status", "Aprovado")]]
        [[("Construto", "Z"), ("Status", "Aprovado")]] = none :=
  c9_identity_key_amended.1 _ _ [("Nome", "Teste Y"), ("Status", "Aprovado")]
    (by decide) (by decide)

/-- C10: `parse_table` never reads the first row — replacing it changes
nothing — since summary rows are taken from index 1 in steps of 2; a table
whose only row is a four-column summary row therefore yields no records. -/
theorem c10_table_first_row_skipped :
    (∀ (r0 r0' : TableRow) (rest : List TableRow),
      parse_table ⟨r0 :: rest⟩ = parse_table ⟨r0' :: rest⟩) ∧
    parse_table ⟨[⟨["Aprovado", "Silva", "Editora X", "Memória"], none⟩]⟩ = [] :=
  ⟨fun _ _ _ => rfl, rfl⟩
